import Mathlib

/-!
# Verification of the dark-matter vault workflow

A shallow embedding of `src/main.rs` of the `dark-matter` vault CLI.
The external collaborators (GPG engine, SQLite storage engine, filesystem,
console) are modelled as explicit parameters: the keyring as a partial map
from key hashes to their encryption capability, the encryption engine as a
pair of fallible functions, the filesystem as a partial map from file names
to byte contents, and the database connection as an explicit `Vault` state
threaded through each operation.  Mutating operations return the new state
together with the Rust function's `Result`; an early `return Err(..)` in the
source corresponds to returning the unchanged state, which is faithful
because in the source every such early return happens before any SQL
statement that mutates the database.
-/

namespace DarkMatter

/-- `GPG_KEY_HASH_CONFIG` constant from the source. -/
def GPG_KEY_HASH_CONFIG : String := "gpg_key_hash"

/-- Byte strings (`Vec<u8>` in the source), as lists of naturals. -/
abbrev Bytes := List Nat

/-- The UTF-8 encoding of one character, as numbers. -/
def utf8Bytes (c : Char) : Bytes :=
  let n := c.toNat
  if n < 0x80 then [n]
  else if n < 0x800 then [0xC0 + n / 0x40, 0x80 + n % 0x40]
  else if n < 0x10000 then [0xE0 + n / 0x1000, 0x80 + n / 0x40 % 0x40, 0x80 + n % 0x40]
  else [0xF0 + n / 0x40000, 0x80 + n / 0x1000 % 0x40, 0x80 + n / 0x40 % 0x40, 0x80 + n % 0x40]

/-- `value.as_bytes()`: the UTF-8 bytes of a string. -/
def strBytes (s : String) : Bytes := s.data.foldr (fun c acc => utf8Bytes c ++ acc) []

/-- The `DmError` enumeration from the source.  `DatabaseError` and
`GpgError`/`IoError` abstract away the wrapped engine error values; `GpgError`
keeps the numeric engine code where the source inspects it. -/
inductive DmError where
  | DatabaseNotFound
  | DatabaseAlreadyExists
  | FileNotFound (path : String)
  | GpgKeyNotFound (hash : String)
  | FileAlreadyExists (path : String)
  | FileNotInStorage (path : String)
  | SecretNotInStorage (name : String)
  | DatabaseError
  | GpgError (code : Nat)
  | IoError
deriving Repr, DecidableEq

/-- A row of the `secrets` table: `name TEXT UNIQUE, body BLOB, tags TEXT`. -/
structure SecretRec where
  name : String
  body : Bytes
  tags : String
deriving Repr, DecidableEq

/-- A row of the `flist` table: `realpath TEXT UNIQUE, body BLOB`. -/
structure FileRec where
  realpath : String
  body : Bytes
deriving Repr, DecidableEq

/-- The vault database: the `config`, `secrets` and `flist` tables.  Lists
record the rows in insertion order (the `AUTOINCREMENT` rowid order). -/
structure Vault where
  config : List (String × String)
  secrets : List SecretRec
  flist : List FileRec
deriving Repr, DecidableEq

/-- The external GPG keyring: `none` when the key hash is unknown, `some b`
when the key exists and `b` records whether it `can_encrypt()`. -/
abbrev Keyring := String → Option Bool

/-- The external encryption engine: `encrypt_content`'s behaviour for a given
plaintext and key hash. -/
abbrev EncryptFn := Bytes → String → Except DmError Bytes

/-- The external decryption engine: `decrypt_content`'s behaviour. -/
abbrev DecryptFn := Bytes → Except DmError Bytes

/-- The filesystem: maps a file name (as given on the command line) to its
contents when `Path::new(filename).exists()`, else `none`. -/
abbrev Fs := String → Option Bytes

/-- `DataManager::verify_gpg_key`: look the key up in the keyring; it must
exist and be able to encrypt. -/
def verify_gpg_key (keyring : Keyring) (key_hash : String) : Except DmError Unit :=
  match keyring key_hash with
  | some canEncrypt =>
      if canEncrypt then .ok ()
      else .error (.GpgKeyNotFound (key_hash ++ " (key cannot be used for encryption)"))
  | none => .error (.GpgKeyNotFound key_hash)

/-- `DataManager::init`: fail if the database file exists; validate the key;
only then create the database with its three tables and insert the single
configuration row binding the vault to `key_hash`.  The outer `Option Vault`
is the storage file (`none` = no `dm-vault.db` on disk). -/
def init (keyring : Keyring) (dbFile : Option Vault) (key_hash : String) :
    Option Vault × Except DmError Unit :=
  match dbFile with
  | some v => (some v, .error .DatabaseAlreadyExists)
  | none =>
    match verify_gpg_key keyring key_hash with
    | .error e => (none, .error e)
    | .ok () =>
      (some { config := [(GPG_KEY_HASH_CONFIG, key_hash)], secrets := [], flist := [] },
        .ok ())

/-- `DataManager::get_gpg_key_hash`: `SELECT value FROM config WHERE key =
'gpg_key_hash'`; a missing row is a `rusqlite` error wrapped as
`DatabaseError`. -/
def get_gpg_key_hash (config : List (String × String)) : Except DmError String :=
  match config.find? (fun kv => kv.1 = GPG_KEY_HASH_CONFIG) with
  | some kv => .ok kv.2
  | none => .error .DatabaseError

/-- `SELECT COUNT(id) FROM secrets WHERE name = ?1` compared against zero. -/
def secretExists (secrets : List SecretRec) (name : String) : Bool :=
  secrets.any (fun s => s.name = name)

/-- `DataManager::add_secret`: refuse an existing name (the source reuses the
`FileAlreadyExists` error variant for secrets), then encrypt the value with
the configured key hash and insert the row. -/
def add_secret (encrypt : EncryptFn) (v : Vault) (name value tags : String) :
    Vault × Except DmError Unit :=
  if secretExists v.secrets name then (v, .error (.FileAlreadyExists name))
  else
    match get_gpg_key_hash v.config with
    | .error e => (v, .error e)
    | .ok key_hash =>
      match encrypt (strBytes value) key_hash with
      | .error e => (v, .error e)
      | .ok encrypted_value =>
        ({ v with secrets := v.secrets ++ [⟨name, encrypted_value, tags⟩] }, .ok ())

/-- `DataManager::update_secret`: refuse a missing name (the source reuses
the `FileNotInStorage` error variant for secrets), re-read the key hash from
the configuration, encrypt, then overwrite the body — and the tags only when
the `tags` argument is non-empty. -/
def update_secret (encrypt : EncryptFn) (v : Vault) (name value tags : String) :
    Vault × Except DmError Unit :=
  if secretExists v.secrets name then
    match get_gpg_key_hash v.config with
    | .error e => (v, .error e)
    | .ok key_hash =>
      match encrypt (strBytes value) key_hash with
      | .error e => (v, .error e)
      | .ok encrypted_value =>
        if tags = "" then
          ({ v with secrets := v.secrets.map (fun s =>
              if s.name = name then { s with body := encrypted_value } else s) }, .ok ())
        else
          ({ v with secrets := v.secrets.map (fun s =>
              if s.name = name then { s with body := encrypted_value, tags := tags }
              else s) }, .ok ())
  else (v, .error (.FileNotInStorage name))

/-- `DataManager::remove_secret`: `DELETE FROM secrets WHERE name = ?1`; the
returned flag is whether any row was affected (zero rows is only an
informational message, not an error). -/
def remove_secret (v : Vault) (name : String) : Vault × Bool :=
  let remaining := v.secrets.filter (fun s => !(s.name = name : Bool))
  ({ v with secrets := remaining }, remaining.length < v.secrets.length)

/-- Result of a `rusqlite` `query_row` call: the value, `QueryReturnedNoRows`,
or some other storage-engine failure. -/
inductive QueryErr where
  | noRows
  | engine
deriving Repr, DecidableEq

/-- `SELECT body FROM secrets WHERE name = ?1` via `query_row`: when the
storage engine itself works (`engineOk`), the first matching row or
`noRows`; otherwise an engine failure. -/
def querySecretBody (engineOk : Bool) (secrets : List SecretRec) (name : String) :
    Except QueryErr Bytes :=
  if engineOk then
    match secrets.find? (fun s => s.name = name) with
    | some s => .ok s.body
    | none => .error .noRows
  else .error .engine

/-- `DataManager::show_secret`: fetch the encrypted body — mapping every
query failure, via `map_err(|_| ..)`, to `SecretNotInStorage` — then decrypt
and return the plaintext that the source prints. -/
def show_secret (engineOk : Bool) (decrypt : DecryptFn) (v : Vault) (name : String) :
    Except DmError Bytes :=
  match querySecretBody engineOk v.secrets name with
  | .error _ => .error (.SecretNotInStorage name)
  | .ok encrypted_value => decrypt encrypted_value

/-- The row `(name, tags)` produced for a secret by `SELECT name, tags`. -/
def secretRow (s : SecretRec) : String × String := (s.name, s.tags)

/-- Comparison used by `ORDER BY name` on the `(name, tags)` rows. -/
def rowLe (a b : String × String) : Prop := a.1 ≤ b.1

instance : DecidableRel rowLe := fun a b => inferInstanceAs (Decidable (a.1 ≤ b.1))

instance : IsTotal (String × String) rowLe := ⟨fun a b => le_total a.1 b.1⟩

instance : IsTrans (String × String) rowLe := ⟨fun _ _ _ h h' => le_trans h h'⟩

/-- Strict version of `rowLe`, comparing only the names. -/
def rowLt (a b : String × String) : Prop := a.1 < b.1

instance : IsAntisymm (String × String) rowLt :=
  ⟨fun _ _ h h' => absurd h' (lt_asymm h)⟩

/-- The tag filter of `DataManager::list_secrets`: with a non-empty filter
string, keep a secret when some comma-separated component of its tags,
trimmed, equals some trimmed component of the filter string. -/
def tagMatch (tags : String) (secretTags : String) : Bool :=
  if tags = "" then true
  else (secretTags.splitOn ",").any (fun t =>
    (tags.splitOn ",").any (fun tag => tag.trim = t.trim))

/-- `DataManager::list_secrets`: `SELECT name, tags FROM secrets ORDER BY
name`, then the in-memory tag filter, preserving the query order. -/
def list_secrets (tags : String) (v : Vault) : List (String × String) :=
  ((v.secrets.map secretRow).insertionSort rowLe).filter (fun row => tagMatch tags row.2)

/-- `Path::is_absolute` for Unix-style paths: the first character is `/`. -/
def pathIsAbsolute (p : String) : Bool := p.data.head? = some '/'

/-- `PathBuf::join` with a relative right-hand side: append with a `/`
separator (none is added when the base already ends in one); no `.` or `..`
component is resolved. -/
def pathJoin (base p : String) : String :=
  if base.data.getLast? = some '/' then base ++ p else base ++ "/" ++ p

/-- `DataManager::get_absolute_path`: an absolute filename is returned
verbatim, a relative one is joined onto the current working directory. -/
def get_absolute_path (cwd : String) (filename : String) : String :=
  if pathIsAbsolute filename then filename else pathJoin cwd filename

/-- `SELECT COUNT(*) FROM flist WHERE realpath = ?1` compared against zero. -/
def fileExistsIn (flist : List FileRec) (realpath : String) : Bool :=
  flist.any (fun r => r.realpath = realpath)

/-- `DataManager::add`: compute the identifier, require the source file on
disk, refuse an already-stored identifier, then read, encrypt with the
configured key hash, and insert. -/
def add (cwd : String) (fs : Fs) (encrypt : EncryptFn) (v : Vault) (filename : String) :
    Vault × Except DmError Unit :=
  match fs filename with
  | none => (v, .error (.FileNotFound filename))
  | some content =>
    if fileExistsIn v.flist (get_absolute_path cwd filename) then
      (v, .error (.FileAlreadyExists (get_absolute_path cwd filename)))
    else
      match get_gpg_key_hash v.config with
      | .error e => (v, .error e)
      | .ok key_hash =>
        match encrypt content key_hash with
        | .error e => (v, .error e)
        | .ok encrypted_content =>
          ({ v with flist :=
              v.flist ++ [⟨get_absolute_path cwd filename, encrypted_content⟩] }, .ok ())

/-- `DataManager::list`: `SELECT realpath FROM flist ORDER BY realpath`. -/
def list (v : Vault) : List String :=
  (v.flist.map (fun r => r.realpath)).insertionSort (· ≤ ·)

/-- `DataManager::update`: compute the identifier, require the source file on
disk, require the identifier to be stored, then read, re-encrypt with the
key hash re-read from the configuration, and overwrite the body. -/
def update (cwd : String) (fs : Fs) (encrypt : EncryptFn) (v : Vault) (filename : String) :
    Vault × Except DmError Unit :=
  match fs filename with
  | none => (v, .error (.FileNotFound filename))
  | some content =>
    if fileExistsIn v.flist (get_absolute_path cwd filename) then
      match get_gpg_key_hash v.config with
      | .error e => (v, .error e)
      | .ok key_hash =>
        match encrypt content key_hash with
        | .error e => (v, .error e)
        | .ok encrypted_content =>
          ({ v with flist := v.flist.map (fun r =>
              if r.realpath = get_absolute_path cwd filename then
                { r with body := encrypted_content }
              else r) },
            .ok ())
    else (v, .error (.FileNotInStorage (get_absolute_path cwd filename)))

/-- `DataManager::remove`: `DELETE FROM flist WHERE realpath = ?1`; the flag
records whether any row was affected. -/
def remove (cwd : String) (v : Vault) (filename : String) : Vault × Bool :=
  ({ v with flist :=
      v.flist.filter (fun r => !(r.realpath = get_absolute_path cwd filename : Bool)) },
    (v.flist.filter (fun r =>
      !(r.realpath = get_absolute_path cwd filename : Bool))).length < v.flist.length)

/-- Split a character list at every occurrence of `sep`. -/
def splitCharAux (sep : Char) : List Char → List Char → List (List Char)
  | [], acc => [acc.reverse]
  | c :: cs, acc =>
    if c = sep then acc.reverse :: splitCharAux sep cs []
    else splitCharAux sep cs (c :: acc)

/-- Split a string at every occurrence of the character `sep`. -/
def splitChar (sep : Char) (s : String) : List String :=
  (splitCharAux sep s.data []).map (fun l => ⟨l⟩)

/-- `Path::file_name` as used by export with `--relative`: the last
`/`-separated component. -/
def fileNameOf (p : String) : String := (splitChar '/' p).getLastD ""

/-- `DataManager::export`: look the identifier up (any query failure becomes
`FileNotInStorage`), decrypt, pick the output name, then — unless `confirm`
was passed — prompt before overwriting an existing destination, cancelling
(`Ok`, writing nothing, `none` here) when the user declines.  A successful
export returns `some (destination, plaintext)`, the `fs::write` call. -/
def exportFile (destExists : String → Bool) (userConfirms : Bool) (decrypt : DecryptFn)
    (cwd : String) (v : Vault) (filename : String) (rel confirm : Bool) :
    Except DmError (Option (String × Bytes)) :=
  match v.flist.find? (fun r => r.realpath = get_absolute_path cwd filename) with
  | none => .error (.FileNotInStorage (get_absolute_path cwd filename))
  | some r =>
    match decrypt r.body with
    | .error e => .error e
    | .ok decrypted_content =>
      if !confirm && destExists (if rel then fileNameOf filename else filename)
          && !userConfirms then
        .ok none
      else
        .ok (some ((if rel then fileNameOf filename else filename), decrypted_content))

/-- Follows the spec's words (the "Path identity rule" / "Canonical path"
glossary entry): the canonicalized absolute path — the input made absolute
against the current working directory and with `.` and `..` components
resolved. -/
def canonicalAbsolutePath_spec (cwd : String) (filename : String) : String :=
  let absolute := if pathIsAbsolute filename then filename else pathJoin cwd filename
  let comps := (splitChar '/' absolute).filter (fun c => !(c = "" : Bool) && !(c = "." : Bool))
  let resolved := comps.foldl
    (fun acc c => if c = ".." then acc.dropLast else acc ++ [c]) ([] : List String)
  resolved.foldl (fun acc c => acc ++ "/" ++ c) ""

/-! ## Theorems -/

/-- Looking a row up after appending one to a table in which the key was
absent finds only the appended row. -/
theorem find?_append_of_not_stored {l : List FileRec} {rp : String}
    (h : fileExistsIn l rp = false) (r : FileRec) :
    (l ++ [r]).find? (fun x => x.realpath = rp) =
      [r].find? (fun x => x.realpath = rp) := by
  induction l with
  | nil => rfl
  | cons a l ih =>
    simp only [fileExistsIn, List.any_cons, Bool.or_eq_false_iff] at h
    simpa only [List.cons_append, List.find?_cons, h.1] using ih h.2

/-- C1 (amended): the record identifier used by the file operations for
lookup and storage is `get_absolute_path`: the filename itself when
absolute, and otherwise the working directory joined to it with a path
separator, with no resolution of `.` or `..` components.  Two spellings
address the same record exactly when their joined strings coincide: a
successful add stores the record under that identifier, a spelling with the
same joined identifier is then refused as already existing, and remove
deletes exactly the rows carrying that identifier. -/
theorem file_record_identifier :
    (∀ cwd filename, pathIsAbsolute filename = true →
      get_absolute_path cwd filename = filename) ∧
    (∀ cwd filename, pathIsAbsolute filename = false →
      get_absolute_path cwd filename = pathJoin cwd filename) ∧
    (∀ cwd fs encrypt (v : Vault) filename content key_hash enc,
      fs filename = some content →
      fileExistsIn v.flist (get_absolute_path cwd filename) = false →
      get_gpg_key_hash v.config = .ok key_hash →
      encrypt content key_hash = .ok enc →
      add cwd fs encrypt v filename =
        ({ v with flist := v.flist ++ [⟨get_absolute_path cwd filename, enc⟩] }, .ok ())) ∧
    (∀ cwd fs encrypt (v : Vault) f₁ f₂ content,
      get_absolute_path cwd f₁ = get_absolute_path cwd f₂ →
      fs f₂ = some content →
      fileExistsIn v.flist (get_absolute_path cwd f₁) = true →
      add cwd fs encrypt v f₂ =
        (v, .error (.FileAlreadyExists (get_absolute_path cwd f₂)))) ∧
    (∀ cwd (v : Vault) filename,
      (remove cwd v filename).1.flist =
        v.flist.filter (fun r => !(r.realpath = get_absolute_path cwd filename : Bool))) := by
  refine ⟨?_, ?_, ?_, ?_, ?_⟩
  · intro cwd filename h
    simp [get_absolute_path, h]
  · intro cwd filename h
    simp [get_absolute_path, h]
  · intro cwd fs encrypt v filename content key_hash enc hread hfree hkey henc
    simp [add, hread, hfree, hkey, henc]
  · intro cwd fs encrypt v f₁ f₂ content hid hread hstored
    rw [hid] at hstored
    simp [add, hread, hstored]
  · intro cwd v filename
    rfl

/-- C1 witness: concrete instances of each conjunct of
`file_record_identifier`. -/
theorem file_record_identifier_witness :
    get_absolute_path "/w" "/abs.txt" = "/abs.txt" ∧
    get_absolute_path "/w" "a.txt" = pathJoin "/w" "a.txt" ∧
    add "/w" (fun f => if f = "a.txt" then some [1, 2] else none) (fun c _ => .ok (0 :: c))
      ⟨[("gpg_key_hash", "K")], [], []⟩ "a.txt" =
      (⟨[("gpg_key_hash", "K")], [], [⟨get_absolute_path "/w" "a.txt", [0, 1, 2]⟩]⟩, .ok ()) ∧
    add "/w" (fun f => if f = "a.txt" then some [1, 2] else none) (fun c _ => .ok (0 :: c))
      ⟨[("gpg_key_hash", "K")], [], [⟨"/w/a.txt", [7]⟩]⟩ "a.txt" =
      (⟨[("gpg_key_hash", "K")], [], [⟨"/w/a.txt", [7]⟩]⟩,
        .error (.FileAlreadyExists (get_absolute_path "/w" "a.txt"))) ∧
    (remove "/w" ⟨[], [], [⟨"/w/a.txt", [7]⟩, ⟨"/w/b.txt", [8]⟩]⟩ "a.txt").1.flist =
      ([⟨"/w/a.txt", [7]⟩, ⟨"/w/b.txt", [8]⟩] : List FileRec).filter
        (fun r => !(r.realpath = get_absolute_path "/w" "a.txt" : Bool)) :=
  ⟨file_record_identifier.1 "/w" "/abs.txt" (by decide),
    file_record_identifier.2.1 "/w" "a.txt" (by decide),
    file_record_identifier.2.2.1 "/w" _ _ _ "a.txt" [1, 2] "K" [0, 1, 2] rfl (by decide) rfl rfl,
    file_record_identifier.2.2.2.1 "/w" _ _ _ "a.txt" "a.txt" [1, 2] rfl rfl (by decide),
    file_record_identifier.2.2.2.2 "/w" ⟨[], [], [⟨"/w/a.txt", [7]⟩, ⟨"/w/b.txt", [8]⟩]⟩ "a.txt"⟩

/-- C1 counterexample: `a.txt` and `./sub/../a.txt` under working directory
`/w` canonicalize to the same absolute path, yet the code assigns them
different record identifiers, and adding the second spelling to a vault
that already stores the file under the first succeeds, creating a second
record for the same file. -/
theorem file_record_identifier_counterexample :
    canonicalAbsolutePath_spec "/w" "a.txt" = canonicalAbsolutePath_spec "/w" "./sub/../a.txt" ∧
    get_absolute_path "/w" "a.txt" ≠ get_absolute_path "/w" "./sub/../a.txt" ∧
    add "/w" (fun _ => some [1]) (fun c _ => .ok c)
      ⟨[("gpg_key_hash", "K")], [], [⟨"/w/a.txt", [1]⟩]⟩ "./sub/../a.txt" =
      (⟨[("gpg_key_hash", "K")], [], [⟨"/w/a.txt", [1]⟩, ⟨"/w/./sub/../a.txt", [1]⟩]⟩,
        .ok ()) :=
  ⟨by decide, by decide, rfl⟩

/-- C2 (amended): adding a record under an id that is already stored leaves
the store unchanged and fails — with the source's `FileAlreadyExists` (the
spec's `RecordAlreadyExists`) whenever the source content is available,
which for secrets is always; a file add whose source file is missing from
disk instead fails with `FileNotFound` (the spec's `SourceNotFound`), still
leaving the store unchanged. -/
theorem add_existing_id_fails :
    (∀ encrypt (v : Vault) name value tags, secretExists v.secrets name = true →
      add_secret encrypt v name value tags = (v, .error (.FileAlreadyExists name))) ∧
    (∀ cwd fs encrypt (v : Vault) filename content, fs filename = some content →
      fileExistsIn v.flist (get_absolute_path cwd filename) = true →
      add cwd fs encrypt v filename =
        (v, .error (.FileAlreadyExists (get_absolute_path cwd filename)))) ∧
    (∀ cwd fs encrypt (v : Vault) filename, fs filename = none →
      add cwd fs encrypt v filename = (v, .error (.FileNotFound filename))) := by
  refine ⟨?_, ?_, ?_⟩
  · intro encrypt v name value tags h
    simp [add_secret, h]
  · intro cwd fs encrypt v filename content hread hstored
    simp [add, hread, hstored]
  · intro cwd fs encrypt v filename hread
    simp [add, hread]

/-- C2 witness: concrete instances of each conjunct of
`add_existing_id_fails`. -/
theorem add_existing_id_fails_witness :
    add_secret (fun c _ => .ok c) ⟨[("gpg_key_hash", "K")], [⟨"n", [9], "t"⟩], []⟩ "n" "s" "" =
      (⟨[("gpg_key_hash", "K")], [⟨"n", [9], "t"⟩], []⟩, .error (.FileAlreadyExists "n")) ∧
    add "/w" (fun _ => some [1]) (fun c _ => .ok c)
      ⟨[("gpg_key_hash", "K")], [], [⟨"/w/a.txt", [7]⟩]⟩ "a.txt" =
      (⟨[("gpg_key_hash", "K")], [], [⟨"/w/a.txt", [7]⟩]⟩,
        .error (.FileAlreadyExists (get_absolute_path "/w" "a.txt"))) ∧
    add "/w" (fun _ => none) (fun c _ => .ok c)
      ⟨[("gpg_key_hash", "K")], [], [⟨"/w/a.txt", [7]⟩]⟩ "a.txt" =
      (⟨[("gpg_key_hash", "K")], [], [⟨"/w/a.txt", [7]⟩]⟩, .error (.FileNotFound "a.txt")) :=
  ⟨add_existing_id_fails.1 _ _ "n" "s" "" (by decide),
    add_existing_id_fails.2.1 "/w" _ _ _ "a.txt" [1] rfl (by decide),
    add_existing_id_fails.2.2 "/w" _ _ _ "a.txt" rfl⟩

/-- C2 counterexample: with the file's id already stored but the source file
missing from disk, file add fails with `FileNotFound`, not with the
already-exists error the claim requires for every such call (the store is
still unchanged). -/
theorem add_existing_id_fails_counterexample :
    fileExistsIn ([⟨"/w/a.txt", [7]⟩] : List FileRec) (get_absolute_path "/w" "a.txt") = true ∧
    add "/w" (fun _ => none) (fun c _ => .ok c)
      ⟨[("gpg_key_hash", "K")], [], [⟨"/w/a.txt", [7]⟩]⟩ "a.txt" =
      (⟨[("gpg_key_hash", "K")], [], [⟨"/w/a.txt", [7]⟩]⟩, .error (.FileNotFound "a.txt")) ∧
    DmError.FileNotFound "a.txt" ≠ DmError.FileAlreadyExists "/w/a.txt" :=
  ⟨by decide, rfl, by decide⟩

/-- C3 (amended): updating an id that is not stored performs no write and
fails — for secrets always with the source's `FileNotInStorage` variant
(the spec's `RecordNotInStorage`), and likewise for files when the source
file exists on disk; a file update whose source file is missing from disk
instead fails with `FileNotFound` (the spec's `SourceNotFound`), still
performing no write. -/
theorem update_missing_id_fails :
    (∀ encrypt (v : Vault) name value tags, secretExists v.secrets name = false →
      update_secret encrypt v name value tags = (v, .error (.FileNotInStorage name))) ∧
    (∀ cwd fs encrypt (v : Vault) filename content, fs filename = some content →
      fileExistsIn v.flist (get_absolute_path cwd filename) = false →
      update cwd fs encrypt v filename =
        (v, .error (.FileNotInStorage (get_absolute_path cwd filename)))) ∧
    (∀ cwd fs encrypt (v : Vault) filename, fs filename = none →
      update cwd fs encrypt v filename = (v, .error (.FileNotFound filename))) := by
  refine ⟨?_, ?_, ?_⟩
  · intro encrypt v name value tags h
    simp [update_secret, h]
  · intro cwd fs encrypt v filename content hread hfree
    simp [update, hread, hfree]
  · intro cwd fs encrypt v filename hread
    simp [update, hread]

/-- C3 witness: concrete instances of each conjunct of
`update_missing_id_fails`. -/
theorem update_missing_id_fails_witness :
    update_secret (fun c _ => .ok c) ⟨[("gpg_key_hash", "K")], [], []⟩ "n" "s" "" =
      (⟨[("gpg_key_hash", "K")], [], []⟩, .error (.FileNotInStorage "n")) ∧
    update "/w" (fun _ => some [1]) (fun c _ => .ok c)
      ⟨[("gpg_key_hash", "K")], [], []⟩ "a.txt" =
      (⟨[("gpg_key_hash", "K")], [], []⟩,
        .error (.FileNotInStorage (get_absolute_path "/w" "a.txt"))) ∧
    update "/w" (fun _ => none) (fun c _ => .ok c)
      ⟨[("gpg_key_hash", "K")], [], []⟩ "a.txt" =
      (⟨[("gpg_key_hash", "K")], [], []⟩, .error (.FileNotFound "a.txt")) :=
  ⟨update_missing_id_fails.1 _ _ "n" "s" "" (by decide),
    update_missing_id_fails.2.1 "/w" _ _ _ "a.txt" [1] rfl (by decide),
    update_missing_id_fails.2.2 "/w" _ _ _ "a.txt" rfl⟩

/-- C3 counterexample: with the file's id absent from the store and the
source file also missing from disk, file update fails with `FileNotFound`,
not with the not-in-storage error the claim requires for every such call
(no write is performed either way). -/
theorem update_missing_id_fails_counterexample :
    fileExistsIn ([] : List FileRec) (get_absolute_path "/w" "a.txt") = false ∧
    update "/w" (fun _ => none) (fun c _ => .ok c)
      ⟨[("gpg_key_hash", "K")], [], []⟩ "a.txt" =
      (⟨[("gpg_key_hash", "K")], [], []⟩, .error (.FileNotFound "a.txt")) ∧
    DmError.FileNotFound "a.txt" ≠ DmError.FileNotInStorage "/w/a.txt" :=
  ⟨by decide, rfl, by decide⟩

/-- Characterization of a successful secret add. -/
theorem add_secret_ok_iff {encrypt : EncryptFn} {v : Vault} {name value tags : String}
    {v' : Vault} :
    add_secret encrypt v name value tags = (v', .ok ()) ↔
      ∃ key_hash enc, secretExists v.secrets name = false ∧
        get_gpg_key_hash v.config = .ok key_hash ∧
        encrypt (strBytes value) key_hash = .ok enc ∧
        v' = { v with secrets := v.secrets ++ [⟨name, enc, tags⟩] } := by
  constructor
  · intro h
    unfold add_secret at h
    cases hex : secretExists v.secrets name with
    | true => rw [hex] at h; simp at h
    | false =>
      rw [hex] at h
      simp only [Bool.false_eq_true, if_false] at h
      cases hkey : get_gpg_key_hash v.config with
      | error e => rw [hkey] at h; simp at h
      | ok key_hash =>
        rw [hkey] at h
        simp only [] at h
        cases henc : encrypt (strBytes value) key_hash with
        | error e => rw [henc] at h; simp at h
        | ok enc =>
          rw [henc] at h
          simp only [Prod.mk.injEq] at h
          exact ⟨key_hash, enc, rfl, rfl, henc, h.1.symm⟩
  · rintro ⟨key_hash, enc, hex, hkey, henc, rfl⟩
    simp [add_secret, hex, hkey, henc]

/-- Characterization of a successful secret update. -/
theorem update_secret_ok_iff {encrypt : EncryptFn} {v : Vault} {name value tags : String}
    {v' : Vault} :
    update_secret encrypt v name value tags = (v', .ok ()) ↔
      ∃ key_hash enc, secretExists v.secrets name = true ∧
        get_gpg_key_hash v.config = .ok key_hash ∧
        encrypt (strBytes value) key_hash = .ok enc ∧
        v' = { v with secrets := v.secrets.map (fun s =>
          if s.name = name then
            (if tags = "" then { s with body := enc }
              else { s with body := enc, tags := tags })
          else s) } := by
  constructor
  · intro h
    unfold update_secret at h
    cases hex : secretExists v.secrets name with
    | false => rw [hex] at h; simp at h
    | true =>
      rw [hex] at h
      simp only [if_true] at h
      cases hkey : get_gpg_key_hash v.config with
      | error e => rw [hkey] at h; simp at h
      | ok key_hash =>
        rw [hkey] at h
        simp only [] at h
        cases henc : encrypt (strBytes value) key_hash with
        | error e => rw [henc] at h; simp at h
        | ok enc =>
          rw [henc] at h
          simp only [] at h
          by_cases htags : tags = ""
          · rw [if_pos htags] at h
            simp only [Prod.mk.injEq] at h
            refine ⟨key_hash, enc, rfl, rfl, henc, ?_⟩
            rw [← h.1]
            simp [htags]
          · rw [if_neg htags] at h
            simp only [Prod.mk.injEq] at h
            refine ⟨key_hash, enc, rfl, rfl, henc, ?_⟩
            rw [← h.1]
            simp [htags]
  · rintro ⟨key_hash, enc, hex, hkey, henc, rfl⟩
    by_cases htags : tags = ""
    · simp [update_secret, hex, hkey, henc, htags]
    · simp [update_secret, hex, hkey, henc, htags]

/-- Characterization of a successful file add. -/
theorem add_ok_iff {cwd : String} {fs : Fs} {encrypt : EncryptFn} {v : Vault}
    {filename : String} {v' : Vault} :
    add cwd fs encrypt v filename = (v', .ok ()) ↔
      ∃ content key_hash enc, fs filename = some content ∧
        fileExistsIn v.flist (get_absolute_path cwd filename) = false ∧
        get_gpg_key_hash v.config = .ok key_hash ∧
        encrypt content key_hash = .ok enc ∧
        v' = { v with flist := v.flist ++ [⟨get_absolute_path cwd filename, enc⟩] } := by
  constructor
  · intro h
    unfold add at h
    cases hread : fs filename with
    | none => rw [hread] at h; simp at h
    | some content =>
      rw [hread] at h
      cases hfree : fileExistsIn v.flist (get_absolute_path cwd filename) with
      | true => rw [hfree] at h; simp at h
      | false =>
        rw [hfree] at h
        simp only [Bool.false_eq_true, if_false] at h
        cases hkey : get_gpg_key_hash v.config with
        | error e => rw [hkey] at h; simp at h
        | ok key_hash =>
          rw [hkey] at h
          simp only [] at h
          cases henc : encrypt content key_hash with
          | error e => rw [henc] at h; simp at h
          | ok enc =>
            rw [henc] at h
            simp only [Prod.mk.injEq] at h
            exact ⟨content, key_hash, enc, rfl, rfl, rfl, henc, h.1.symm⟩
  · rintro ⟨content, key_hash, enc, hread, hfree, hkey, henc, rfl⟩
    simp [add, hread, hfree, hkey, henc]

/-- Characterization of a successful file update. -/
theorem update_ok_iff {cwd : String} {fs : Fs} {encrypt : EncryptFn} {v : Vault}
    {filename : String} {v' : Vault} :
    update cwd fs encrypt v filename = (v', .ok ()) ↔
      ∃ content key_hash enc, fs filename = some content ∧
        fileExistsIn v.flist (get_absolute_path cwd filename) = true ∧
        get_gpg_key_hash v.config = .ok key_hash ∧
        encrypt content key_hash = .ok enc ∧
        v' = { v with flist := v.flist.map (fun r =>
          if r.realpath = get_absolute_path cwd filename then { r with body := enc }
          else r) } := by
  constructor
  · intro h
    unfold update at h
    cases hread : fs filename with
    | none => rw [hread] at h; simp at h
    | some content =>
      rw [hread] at h
      cases hstored : fileExistsIn v.flist (get_absolute_path cwd filename) with
      | false => rw [hstored] at h; simp at h
      | true =>
        rw [hstored] at h
        simp only [if_true] at h
        cases hkey : get_gpg_key_hash v.config with
        | error e => rw [hkey] at h; simp at h
        | ok key_hash =>
          rw [hkey] at h
          simp only [] at h
          cases henc : encrypt content key_hash with
          | error e => rw [henc] at h; simp at h
          | ok enc =>
            rw [henc] at h
            simp only [Prod.mk.injEq] at h
            exact ⟨content, key_hash, enc, rfl, rfl, rfl, henc, h.1.symm⟩
  · rintro ⟨content, key_hash, enc, hread, hstored, hkey, henc, rfl⟩
    simp [update, hread, hstored, hkey, henc]

/-- C4: under the engine round-trip assumption — `decrypt` undoes `encrypt`
on this content for the bound key — adding a readable file with body `C`
and then exporting the same path with overwrite confirmed succeeds and
writes exactly `C` to the destination: the workflow stores the encrypt
output unmodified and writes the decrypt output unmodified. -/
theorem add_export_roundtrip
    (cwd : String) (fs : Fs) (encrypt : EncryptFn) (decrypt : DecryptFn)
    (destExists : String → Bool) (userConfirms : Bool) (v : Vault)
    (filename : String) (content enc : Bytes) (key_hash : String)
    (hread : fs filename = some content)
    (hfree : fileExistsIn v.flist (get_absolute_path cwd filename) = false)
    (hkey : get_gpg_key_hash v.config = .ok key_hash)
    (henc : encrypt content key_hash = .ok enc)
    (hdec : decrypt enc = .ok content) :
    ∃ v', add cwd fs encrypt v filename = (v', .ok ()) ∧
      exportFile destExists userConfirms decrypt cwd v' filename false true =
        .ok (some (filename, content)) := by
  refine ⟨{ v with flist := v.flist ++ [⟨get_absolute_path cwd filename, enc⟩] }, ?_, ?_⟩
  · simp [add, hread, hfree, hkey, henc]
  · unfold exportFile
    rw [show ({ v with flist := v.flist ++ [⟨get_absolute_path cwd filename, enc⟩] } :
        Vault).flist = v.flist ++ [⟨get_absolute_path cwd filename, enc⟩] from rfl,
      find?_append_of_not_stored hfree, List.find?_cons_of_pos _ (by simp)]
    simp [hdec]

/-- C4 witness: a concrete round trip with a toy engine that prepends a byte
on encryption and strips it on decryption. -/
theorem add_export_roundtrip_witness :
    ∃ v', add "/w" (fun f => if f = "a.txt" then some [1, 2] else none)
        (fun c _ => .ok (0 :: c)) ⟨[("gpg_key_hash", "K")], [], []⟩ "a.txt" = (v', .ok ()) ∧
      exportFile (fun _ => true) false
        (fun b => match b with | 0 :: c => .ok c | _ => .error .IoError)
        "/w" v' "a.txt" false true = .ok (some ("a.txt", [1, 2])) :=
  add_export_roundtrip "/w" _ _ _ _ false ⟨[("gpg_key_hash", "K")], [], []⟩
    "a.txt" [1, 2] [0, 1, 2] "K" rfl (by decide) rfl rfl rfl

/-- C7: init fails with the already-exists error whenever the storage file
is present, leaving it untouched; with no storage file it validates the key
first — a failed validation creates no storage file — and on success
creates the vault whose configuration is exactly the one row binding the
vault to the given key identifier. -/
theorem init_contract :
    (∀ (keyring : Keyring) (v : Vault) key_hash,
      init keyring (some v) key_hash = (some v, .error .DatabaseAlreadyExists)) ∧
    (∀ (keyring : Keyring) key_hash e, verify_gpg_key keyring key_hash = .error e →
      init keyring none key_hash = (none, .error e)) ∧
    (∀ (keyring : Keyring) key_hash, keyring key_hash = some true →
      init keyring none key_hash =
        (some { config := [(GPG_KEY_HASH_CONFIG, key_hash)], secrets := [], flist := [] },
          .ok ())) := by
  refine ⟨fun _ _ _ => rfl, ?_, ?_⟩
  · intro keyring key_hash e h
    simp [init, h]
  · intro keyring key_hash h
    simp [init, verify_gpg_key, h]

/-- C7 witness: concrete instances of each conjunct of `init_contract`. -/
theorem init_contract_witness :
    init (fun _ => some true) (some ⟨[("gpg_key_hash", "K")], [], []⟩) "K2" =
      (some ⟨[("gpg_key_hash", "K")], [], []⟩, .error .DatabaseAlreadyExists) ∧
    init (fun _ => none) none "K" = (none, .error (.GpgKeyNotFound "K")) ∧
    init (fun k => if k = "K" then some true else none) none "K" =
      (some { config := [(GPG_KEY_HASH_CONFIG, "K")], secrets := [], flist := [] },
        .ok ()) :=
  ⟨init_contract.1 _ ⟨[("gpg_key_hash", "K")], [], []⟩ "K2",
    init_contract.2.1 _ "K" _ rfl,
    init_contract.2.2 _ "K" (by decide)⟩

/-- C9 (amended): secret show on a name absent from the vault fails with the
specific `SecretNotInStorage` error, and a decryption failure is surfaced
as the decryption engine's own error; however a storage-engine failure of
the body-fetch query is also mapped to `SecretNotInStorage` — the source
discards the query error via `map_err(|_| ..)` — rather than surfacing as a
storage error. -/
theorem show_secret_error_kinds :
    (∀ (decrypt : DecryptFn) (v : Vault) name,
      v.secrets.find? (fun s => s.name = name) = none →
      show_secret true decrypt v name = .error (.SecretNotInStorage name)) ∧
    (∀ (decrypt : DecryptFn) (v : Vault) name s e,
      v.secrets.find? (fun s' => s'.name = name) = some s →
      decrypt s.body = .error e →
      show_secret true decrypt v name = .error e) ∧
    (∀ (decrypt : DecryptFn) (v : Vault) name,
      show_secret false decrypt v name = .error (.SecretNotInStorage name)) := by
  refine ⟨?_, ?_, fun _ _ _ => rfl⟩
  · intro decrypt v name h
    simp [show_secret, querySecretBody, h]
  · intro decrypt v name s e hfind hdec
    simp [show_secret, querySecretBody, hfind, hdec]

/-- C9 witness: concrete instances of each conjunct of
`show_secret_error_kinds`. -/
theorem show_secret_error_kinds_witness :
    show_secret true (fun b => .ok b) ⟨[("gpg_key_hash", "K")], [], []⟩ "missing-name" =
      .error (.SecretNotInStorage "missing-name") ∧
    show_secret true (fun _ => .error (.GpgError 9))
      ⟨[("gpg_key_hash", "K")], [⟨"n", [9], ""⟩], []⟩ "n" = .error (.GpgError 9) ∧
    show_secret false (fun b => .ok b) ⟨[("gpg_key_hash", "K")], [⟨"n", [9], ""⟩], []⟩ "n" =
      .error (.SecretNotInStorage "n") :=
  ⟨show_secret_error_kinds.1 _ ⟨[("gpg_key_hash", "K")], [], []⟩ "missing-name" rfl,
    show_secret_error_kinds.2.1 _ ⟨[("gpg_key_hash", "K")], [⟨"n", [9], ""⟩], []⟩ "n"
      ⟨"n", [9], ""⟩ (.GpgError 9) rfl rfl,
    show_secret_error_kinds.2.2 _ ⟨[("gpg_key_hash", "K")], [⟨"n", [9], ""⟩], []⟩ "n"⟩

/-- C9 counterexample: with the secret present but the storage engine
failing on the body-fetch query, show reports `SecretNotInStorage` — not a
storage error as the claim requires. -/
theorem show_secret_error_kinds_counterexample :
    secretExists [⟨"n", [9], ""⟩] "n" = true ∧
    show_secret false (fun b => .ok b) ⟨[("gpg_key_hash", "K")], [⟨"n", [9], ""⟩], []⟩ "n" =
      .error (.SecretNotInStorage "n") ∧
    DmError.SecretNotInStorage "n" ≠ DmError.DatabaseError :=
  ⟨by decide, rfl, by decide⟩

/-- C5: both listings produce their identifiers in strictly increasing
lexicographic order, and the produced sequence is invariant under
permutations of the stored rows — so independent of insertion order.  The
uniqueness hypothesis is the `UNIQUE` column constraint of the schema. -/
theorem list_sorted_insertion_independent :
    (∀ v₁ v₂ : Vault, List.Perm v₁.flist v₂.flist →
      (v₁.flist.map (fun r => r.realpath)).Nodup →
      (list v₁).Pairwise (· < ·) ∧ list v₁ = list v₂) ∧
    (∀ (tags : String) (v₁ v₂ : Vault), List.Perm v₁.secrets v₂.secrets →
      (v₁.secrets.map (fun s => s.name)).Nodup →
      ((list_secrets tags v₁).map Prod.fst).Pairwise (· < ·) ∧
        list_secrets tags v₁ = list_secrets tags v₂) := by
  constructor
  · intro v₁ v₂ hperm hnodup
    have hs₁ : (list v₁).Sorted (· ≤ · : String → String → Prop) :=
      List.sorted_insertionSort _ _
    have hs₂ : (list v₂).Sorted (· ≤ · : String → String → Prop) :=
      List.sorted_insertionSort _ _
    have hp₁ : List.Perm (list v₁) (v₁.flist.map (fun r => r.realpath)) := List.perm_insertionSort _ _
    have hp₂ : List.Perm (list v₂) (v₂.flist.map (fun r => r.realpath)) := List.perm_insertionSort _ _
    have hnd : (list v₁).Nodup := hp₁.nodup_iff.mpr hnodup
    exact ⟨(hs₁.and hnd).imp (fun h => lt_of_le_of_ne h.1 h.2),
      List.eq_of_perm_of_sorted (hp₁.trans ((hperm.map _).trans hp₂.symm)) hs₁ hs₂⟩
  · intro tags v₁ v₂ hperm hnodup
    have hfst : ∀ v : Vault, (v.secrets.map secretRow).map Prod.fst
        = v.secrets.map (fun s => s.name) := by
      intro v
      simp [secretRow, List.map_map, Function.comp]
    have hlt : ∀ v : Vault, (v.secrets.map (fun s => s.name)).Nodup →
        ((v.secrets.map secretRow).insertionSort rowLe).Pairwise rowLt := by
      intro v hnd
      have hpv : List.Perm ((v.secrets.map secretRow).insertionSort rowLe)
          (v.secrets.map secretRow) := List.perm_insertionSort _ _
      have hnd' : (((v.secrets.map secretRow).insertionSort rowLe).map Prod.fst).Nodup :=
        ((hpv.map Prod.fst).nodup_iff).mpr (by rw [hfst v]; exact hnd)
      have hne : ((v.secrets.map secretRow).insertionSort rowLe).Pairwise
          (fun a b => a.1 ≠ b.1) := List.pairwise_map.mp hnd'
      exact ((List.sorted_insertionSort rowLe _).and hne).imp
        (fun h => lt_of_le_of_ne h.1 h.2)
    have hnodup₂ : (v₂.secrets.map (fun s => s.name)).Nodup :=
      ((hperm.map (fun s => s.name)).nodup_iff).mp hnodup
    have hp₁ : List.Perm ((v₁.secrets.map secretRow).insertionSort rowLe)
        (v₁.secrets.map secretRow) := List.perm_insertionSort _ _
    have hp₂ : List.Perm ((v₂.secrets.map secretRow).insertionSort rowLe)
        (v₂.secrets.map secretRow) := List.perm_insertionSort _ _
    have heq : (v₁.secrets.map secretRow).insertionSort rowLe
        = (v₂.secrets.map secretRow).insertionSort rowLe :=
      List.eq_of_perm_of_sorted
        (hp₁.trans ((hperm.map secretRow).trans hp₂.symm))
        (hlt v₁ hnodup) (hlt v₂ hnodup₂)
    constructor
    · exact List.pairwise_map.mpr ((hlt v₁ hnodup).filter _)
    · simp only [list_secrets]
      rw [heq]

/-- C5 witness: concrete two-row vaults in both insertion orders. -/
theorem list_sorted_insertion_independent_witness :
    ((list ⟨[], [], [⟨"/b", [1]⟩, ⟨"/a", [2]⟩]⟩).Pairwise (· < ·) ∧
      list ⟨[], [], [⟨"/b", [1]⟩, ⟨"/a", [2]⟩]⟩ = list ⟨[], [], [⟨"/a", [2]⟩, ⟨"/b", [1]⟩]⟩) ∧
    ((list_secrets "p" ⟨[], [⟨"b", [1], "p"⟩, ⟨"a", [2], "q"⟩], []⟩).map Prod.fst).Pairwise
      (· < ·) ∧
    list_secrets "p" ⟨[], [⟨"b", [1], "p"⟩, ⟨"a", [2], "q"⟩], []⟩ =
      list_secrets "p" ⟨[], [⟨"a", [2], "q"⟩, ⟨"b", [1], "p"⟩], []⟩ :=
  ⟨list_sorted_insertion_independent.1 ⟨[], [], [⟨"/b", [1]⟩, ⟨"/a", [2]⟩]⟩
      ⟨[], [], [⟨"/a", [2]⟩, ⟨"/b", [1]⟩]⟩ (by decide) (by decide),
    (list_sorted_insertion_independent.2 "p" ⟨[], [⟨"b", [1], "p"⟩, ⟨"a", [2], "q"⟩], []⟩
      ⟨[], [⟨"a", [2], "q"⟩, ⟨"b", [1], "p"⟩], []⟩ (by decide) (by decide)).1,
    (list_sorted_insertion_independent.2 "p" ⟨[], [⟨"b", [1], "p"⟩, ⟨"a", [2], "q"⟩], []⟩
      ⟨[], [⟨"a", [2], "q"⟩, ⟨"b", [1], "p"⟩], []⟩ (by decide) (by decide)).2⟩

/-- Characterization of the source's tag filter: it accepts exactly when the
filter is empty or the trimmed comma-components intersect. -/
theorem tagMatch_eq_true_iff (tags secretTags : String) :
    tagMatch tags secretTags = true ↔
      (tags = "" ∨ ∃ x ∈ (secretTags.splitOn ",").map String.trim,
        x ∈ (tags.splitOn ",").map String.trim) := by
  unfold tagMatch
  by_cases h : tags = ""
  · simp [h]
  · rw [if_neg h]
    simp only [List.any_eq_true, decide_eq_true_eq]
    constructor
    · rintro ⟨t, ht, tag, htag, heq⟩
      exact Or.inr ⟨t.trim, List.mem_map.mpr ⟨t, ht, rfl⟩, List.mem_map.mpr ⟨tag, htag, heq⟩⟩
    · rintro (h' | ⟨x, hx, hx'⟩)
      · exact absurd h' h
      · obtain ⟨t, ht, rfl⟩ := List.mem_map.mp hx
        obtain ⟨tag, htag, htg⟩ := List.mem_map.mp hx'
        exact ⟨t, ht, tag, htag, htg⟩

/-- C6: a `(name, tags)` row appears in the secret listing exactly when it is
a stored secret's row and either the filter string is empty or the trimmed
comma-split tag set of the row intersects the trimmed comma-split filter
set, by exact string comparison. -/
theorem list_secrets_tag_filter (tags : String) (v : Vault) (row : String × String) :
    row ∈ list_secrets tags v ↔
      row ∈ v.secrets.map secretRow ∧
        (tags = "" ∨ ∃ x ∈ (row.2.splitOn ",").map String.trim,
          x ∈ (tags.splitOn ",").map String.trim) := by
  unfold list_secrets
  rw [List.mem_filter, List.mem_insertionSort]
  exact and_congr_right fun _ => tagMatch_eq_true_iff tags row.2

/-- C8: every encryption performed by a successful add or update — for files
and for secrets — uses exactly the key identifier read by
`get_gpg_key_hash` from the configuration of the vault being operated on at
that call, and the stored body is that encryption's unmodified output. -/
theorem encryption_uses_configured_key :
    (∀ (encrypt : EncryptFn) (v : Vault) name value tags (v' : Vault),
      add_secret encrypt v name value tags = (v', .ok ()) →
      ∃ key_hash enc, get_gpg_key_hash v.config = .ok key_hash ∧
        encrypt (strBytes value) key_hash = .ok enc ∧
        v'.secrets = v.secrets ++ [⟨name, enc, tags⟩]) ∧
    (∀ (encrypt : EncryptFn) (v : Vault) name value tags (v' : Vault),
      update_secret encrypt v name value tags = (v', .ok ()) →
      ∃ key_hash enc, get_gpg_key_hash v.config = .ok key_hash ∧
        encrypt (strBytes value) key_hash = .ok enc) ∧
    (∀ cwd (fs : Fs) (encrypt : EncryptFn) (v : Vault) filename (v' : Vault),
      add cwd fs encrypt v filename = (v', .ok ()) →
      ∃ content key_hash enc, fs filename = some content ∧
        get_gpg_key_hash v.config = .ok key_hash ∧
        encrypt content key_hash = .ok enc ∧
        v'.flist = v.flist ++ [⟨get_absolute_path cwd filename, enc⟩]) ∧
    (∀ cwd (fs : Fs) (encrypt : EncryptFn) (v : Vault) filename (v' : Vault),
      update cwd fs encrypt v filename = (v', .ok ()) →
      ∃ content key_hash enc, fs filename = some content ∧
        get_gpg_key_hash v.config = .ok key_hash ∧
        encrypt content key_hash = .ok enc) := by
  refine ⟨?_, ?_, ?_, ?_⟩
  · intro encrypt v name value tags v' h
    obtain ⟨kh, enc, -, hkey, henc, rfl⟩ := add_secret_ok_iff.mp h
    exact ⟨kh, enc, hkey, henc, rfl⟩
  · intro encrypt v name value tags v' h
    obtain ⟨kh, enc, -, hkey, henc, -⟩ := update_secret_ok_iff.mp h
    exact ⟨kh, enc, hkey, henc⟩
  · intro cwd fs encrypt v filename v' h
    obtain ⟨c, kh, enc, hread, -, hkey, henc, rfl⟩ := add_ok_iff.mp h
    exact ⟨c, kh, enc, hread, hkey, henc, rfl⟩
  · intro cwd fs encrypt v filename v' h
    obtain ⟨c, kh, enc, hread, -, hkey, henc, -⟩ := update_ok_iff.mp h
    exact ⟨c, kh, enc, hread, hkey, henc⟩

/-- C8 witness: concrete instances of each conjunct of
`encryption_uses_configured_key`. -/
theorem encryption_uses_configured_key_witness :
    (∃ key_hash enc,
      get_gpg_key_hash (⟨[("gpg_key_hash", "K")], [], []⟩ : Vault).config = .ok key_hash ∧
      (fun (c : Bytes) (_ : String) => (Except.ok (0 :: c) : Except DmError Bytes))
        (strBytes "s") key_hash = .ok enc ∧
      (⟨[("gpg_key_hash", "K")], [⟨"n", [0, 115], "t"⟩], []⟩ : Vault).secrets =
        (⟨[("gpg_key_hash", "K")], [], []⟩ : Vault).secrets ++ [⟨"n", enc, "t"⟩]) ∧
    (∃ key_hash enc,
      get_gpg_key_hash (⟨[("gpg_key_hash", "K")], [⟨"n", [9], "t"⟩], []⟩ : Vault).config =
        .ok key_hash ∧
      (fun (c : Bytes) (_ : String) => (Except.ok (0 :: c) : Except DmError Bytes))
        (strBytes "s") key_hash = .ok enc) ∧
    (∃ content key_hash enc,
      (fun f => if f = "a.txt" then some ([1, 2] : Bytes) else none) "a.txt" = some content ∧
      get_gpg_key_hash (⟨[("gpg_key_hash", "K")], [], []⟩ : Vault).config = .ok key_hash ∧
      (fun (c : Bytes) (_ : String) => (Except.ok (0 :: c) : Except DmError Bytes))
        content key_hash = .ok enc ∧
      (⟨[("gpg_key_hash", "K")], [], [⟨"/w/a.txt", [0, 1, 2]⟩]⟩ : Vault).flist =
        (⟨[("gpg_key_hash", "K")], [], []⟩ : Vault).flist ++
          [⟨get_absolute_path "/w" "a.txt", enc⟩]) ∧
    (∃ content key_hash enc,
      (fun f => if f = "a.txt" then some ([1, 2] : Bytes) else none) "a.txt" = some content ∧
      get_gpg_key_hash (⟨[("gpg_key_hash", "K")], [], [⟨"/w/a.txt", [9]⟩]⟩ : Vault).config =
        .ok key_hash ∧
      (fun (c : Bytes) (_ : String) => (Except.ok (0 :: c) : Except DmError Bytes))
        content key_hash = .ok enc) :=
  ⟨encryption_uses_configured_key.1 (fun c _ => .ok (0 :: c))
      ⟨[("gpg_key_hash", "K")], [], []⟩ "n" "s" "t"
      ⟨[("gpg_key_hash", "K")], [⟨"n", [0, 115], "t"⟩], []⟩ rfl,
    encryption_uses_configured_key.2.1 (fun c _ => .ok (0 :: c))
      ⟨[("gpg_key_hash", "K")], [⟨"n", [9], "t"⟩], []⟩
      "n" "s" "" ⟨[("gpg_key_hash", "K")], [⟨"n", [0, 115], "t"⟩], []⟩ rfl,
    encryption_uses_configured_key.2.2.1 "/w"
      (fun f => if f = "a.txt" then some ([1, 2] : Bytes) else none)
      (fun c _ => .ok (0 :: c)) ⟨[("gpg_key_hash", "K")], [], []⟩ "a.txt"
      ⟨[("gpg_key_hash", "K")], [], [⟨"/w/a.txt", [0, 1, 2]⟩]⟩ rfl,
    encryption_uses_configured_key.2.2.2 "/w"
      (fun f => if f = "a.txt" then some ([1, 2] : Bytes) else none)
      (fun c _ => .ok (0 :: c))
      ⟨[("gpg_key_hash", "K")], [], [⟨"/w/a.txt", [9]⟩]⟩ "a.txt"
      ⟨[("gpg_key_hash", "K")], [], [⟨"/w/a.txt", [0, 1, 2]⟩]⟩ rfl⟩

/-- C10: a secret update called with an empty tags argument replaces the
encrypted body and leaves every stored tags field exactly as it was; and no
successful secret update, whatever its tags argument, takes a stored
secret's tags from non-empty to empty. -/
theorem update_secret_empty_tags_frame :
    (∀ (encrypt : EncryptFn) (v : Vault) name value (v' : Vault),
      update_secret encrypt v name value "" = (v', .ok ()) →
      ∃ enc, v'.secrets = v.secrets.map (fun s =>
        if s.name = name then { s with body := enc } else s)) ∧
    (∀ (encrypt : EncryptFn) (v : Vault) name value tags (v' : Vault),
      update_secret encrypt v name value tags = (v', .ok ()) →
      ∀ s' ∈ v'.secrets, ∃ s ∈ v.secrets,
        s'.name = s.name ∧ (s.tags ≠ "" → s'.tags ≠ "")) := by
  constructor
  · intro encrypt v name value v' h
    obtain ⟨kh, enc, -, -, -, rfl⟩ := update_secret_ok_iff.mp h
    exact ⟨enc, by simp⟩
  · intro encrypt v name value tags v' h s' hs'
    obtain ⟨kh, enc, -, -, -, rfl⟩ := update_secret_ok_iff.mp h
    simp only [List.mem_map] at hs'
    obtain ⟨s, hs, rfl⟩ := hs'
    refine ⟨s, hs, ?_, ?_⟩
    · by_cases hname : s.name = name <;> by_cases htags : tags = "" <;>
        simp [hname, htags]
    · intro hst
      by_cases hname : s.name = name <;> by_cases htags : tags = "" <;>
        simp [hname, htags, hst]

/-- C10 witness: concrete instances of both conjuncts of
`update_secret_empty_tags_frame`. -/
theorem update_secret_empty_tags_frame_witness :
    (∃ enc, (⟨[("gpg_key_hash", "K")], [⟨"n", [0, 115], "t"⟩], []⟩ : Vault).secrets =
      (⟨[("gpg_key_hash", "K")], [⟨"n", [9], "t"⟩], []⟩ : Vault).secrets.map (fun s =>
        if s.name = "n" then { s with body := enc } else s)) ∧
    (∀ s' ∈ (⟨[("gpg_key_hash", "K")], [⟨"n", [0, 115], "x"⟩], []⟩ : Vault).secrets,
      ∃ s ∈ (⟨[("gpg_key_hash", "K")], [⟨"n", [9], "t"⟩], []⟩ : Vault).secrets,
        s'.name = s.name ∧ (s.tags ≠ "" → s'.tags ≠ "")) :=
  ⟨update_secret_empty_tags_frame.1 (fun c _ => .ok (0 :: c))
      ⟨[("gpg_key_hash", "K")], [⟨"n", [9], "t"⟩], []⟩ "n" "s"
      ⟨[("gpg_key_hash", "K")], [⟨"n", [0, 115], "t"⟩], []⟩ rfl,
    update_secret_empty_tags_frame.2 (fun c _ => .ok (0 :: c))
      ⟨[("gpg_key_hash", "K")], [⟨"n", [9], "t"⟩], []⟩ "n" "s" "x"
      ⟨[("gpg_key_hash", "K")], [⟨"n", [0, 115], "x"⟩], []⟩ rfl⟩

end DarkMatter
